import Mathlib

/-!
Verification of the room-membership and broadcast engine of the
roomio chat service, embedded from `src/websockets/index.ts`.

The repository keeps per-room participant state in a module-level plain
object `participants` mapping `meetingId` to an array of participant
records, mutates it in the `join-meeting`, `update-media-state` and
`disconnect` socket handlers, and emits events through three delivery
primitives:
  - `socket.emit`              — to the current connection only;
  - `socket.broadcast.to(r)`   — to every member of room `r` except the
                                 current connection;
  - `io.to(r)`                 — to every member of room `r`, the current
                                 connection included.
We embed the registry as an association list (JavaScript object
semantics: fresh keys are appended at the end, assignment to an existing
key keeps its position), and each handler as a pure function from the
registry and the results of its external collaborators (Firestore
profile lookup, `MessageDAO` history fetch / message append) to the new
registry plus the ordered list of emissions.  Collaborator calls that
the source awaits without a surrounding try/catch are modelled through
`Except`: a rejected promise aborts the rest of the handler body.
-/

set_option autoImplicit false

/-- One participant record as pushed by the `join-meeting` handler:
`{ userId, userName, photoURL, isMuted, isVideoOff }`. -/
structure Participant where
  userId : String
  userName : String
  photoURL : Option String
  isMuted : Bool
  isVideoOff : Bool
deriving DecidableEq, Repr

/-- The module-level `participants` object: `meetingId` to array of
participants, with JavaScript object key semantics (insertion order). -/
abbrev Registry := List (String × List Participant)

/-- `participants[meetingId]` read, with a missing key read as the empty
list (the handlers create the key before using it). -/
def roomList : Registry → String → List Participant
  | [], _ => []
  | (k, l) :: rest, r => if k = r then l else roomList rest r

/-- Whether `meetingId` is a key of the `participants` object. -/
def hasRoomB : Registry → String → Bool
  | [], _ => false
  | (k, _) :: rest, r => if k = r then true else hasRoomB rest r

/-- Pointwise effect of `participants[r] = l` on one key-value entry. -/
def setEntry (r : String) (l : List Participant)
    (kv : String × List Participant) : String × List Participant :=
  if kv.1 = r then (r, l) else kv

/-- `participants[meetingId] = l`: replaces the value in place when the
key exists, otherwise appends the key at the end (JavaScript object
insertion order). -/
def setRoom (reg : Registry) (r : String) (l : List Participant) : Registry :=
  if hasRoomB reg r then reg.map (setEntry r l)
  else reg ++ [(r, l)]

/-- Outcome of the Firestore `users/{uid}` document read performed by
`getUserData`: the awaited promise rejects, resolves to a document that
does not exist, or resolves to a document whose `displayName` /
`photoURL` fields may each be absent. -/
inductive LookupResult where
  | failure
  | notFound
  | found (displayName : Option String) (photoURL : Option String)
deriving DecidableEq, Repr

/-- `getUserData` (index.ts lines 50–66): defaults `userName = "User"`,
`photoURL = null`; the guards `if (data?.displayName)` and
`if (data?.photoURL)` only overwrite the defaults with a truthy value
(the empty string is falsy in JavaScript); the try/catch keeps lookup
failures local, so this function is total. -/
def getUserData : LookupResult → String × Option String
  | .failure => ("User", none)
  | .notFound => ("User", none)
  | .found dn pu =>
      ((match dn with
        | some s => if s = "" then "User" else s
        | none => "User"),
       (match pu with
        | some s => if s = "" then none else some s
        | none => none))

/-- Payload of `join-meeting`: either the old bare-string format or the
new object format with optional `photoURL`, `isMuted`, `isVideoOff`. -/
inductive JoinData where
  | str (meetingId : String)
  | obj (meetingId : String) (photoURL : Option String)
      (isMuted : Option Bool) (isVideoOff : Option Bool)
deriving DecidableEq, Repr

/-- `typeof data === 'string' ? data : data.meetingId` (line 76). -/
def dataMeetingId : JoinData → String
  | .str m => m
  | .obj m _ _ _ => m

/-- `typeof data === 'object' ? data.photoURL : null` (line 77). -/
def dataClientPhotoURL : JoinData → Option String
  | .str _ => none
  | .obj _ p _ _ => p

/-- The raw `data.isMuted` field (`none` for the string format or an
object payload that omits it). -/
def dataMutedField : JoinData → Option Bool
  | .str _ => none
  | .obj _ _ mu _ => mu

/-- The raw `data.isVideoOff` field (`none` when omitted). -/
def dataVideoField : JoinData → Option Bool
  | .str _ => none
  | .obj _ _ _ vo => vo

/-- `typeof data === 'object' && data.isMuted !== undefined ?
data.isMuted : true` (line 78). -/
def dataIsMuted (d : JoinData) : Bool := (dataMutedField d).getD true

/-- `typeof data === 'object' && data.isVideoOff !== undefined ?
data.isVideoOff : true` (line 79). -/
def dataIsVideoOff (d : JoinData) : Bool := (dataVideoField d).getD true

/-- JavaScript `a || b` on nullable strings (line 90,
`clientPhotoURL || userData.photoURL`): `null`, `undefined` and the
empty string are falsy. -/
def jsOrStr (a b : Option String) : Option String :=
  match a with
  | some s => if s = "" then b else some s
  | none => b

/-- A chat message payload as built by the `send-message` handler
(lines 174–180).  `userName` is `Option String` because a document that
exists without a `displayName` field yields `undefined` there. -/
structure ChatPayload where
  meetingId : String
  senderId : String
  userName : Option String
  message : String
  time : String
deriving DecidableEq, Repr

/-- Delivery target of an emission. -/
inductive Target where
  | toSocket
  | broadcastExcept (roomId : String)
  | toRoom (roomId : String)
deriving DecidableEq, Repr

/-- The events emitted by the handlers. -/
inductive Event where
  | chatHistory (history : List ChatPayload)
  | userJoined (userId : String) (userName : String) (photoURL : Option String)
  | participantsList (ps : List Participant)
  | mediaStateUpdated (userId : String) (isMuted : Bool) (isVideoOff : Bool)
  | newMessage (p : ChatPayload)
  | userLeft (userId : String) (userName : String)
deriving DecidableEq, Repr

/-- One emission: a target plus the event sent to it. -/
structure Emit where
  target : Target
  event : Event
deriving DecidableEq, Repr

/-- The participant record pushed by a completed join (lines 99–105):
`userName` and the Firestore `photoURL` fallback come from
`getUserData`, the client `photoURL` wins when truthy, and the media
flags come from the parsed payload. -/
def mkJoinParticipant (uid : String) (data : JoinData)
    (prof : LookupResult) : Participant :=
  { userId := uid
  , userName := (getUserData prof).1
  , photoURL := jsOrStr (dataClientPhotoURL data) (getUserData prof).2
  , isMuted := dataIsMuted data
  , isVideoOff := dataIsVideoOff data }

/-- Result of a join: the new registry and the ordered emissions. -/
structure JoinResult where
  reg : Registry
  emits : List Emit
deriving DecidableEq, Repr

/-- The room's participant array right after the registry mutation of
`join-meeting` (lines 92–110): ensure the key exists, drop every
previous entry of `uid` (line 96), then push the fresh record only when
`uid` is truthy (the `if (uid)` guard on line 98). -/
def joinNewList (reg : Registry) (uid : String) (data : JoinData)
    (prof : LookupResult) : List Participant :=
  if uid ≠ "" then
    ((roomList reg (dataMeetingId data)).filter
        (fun p => decide (p.userId ≠ uid))) ++ [mkJoinParticipant uid data prof]
  else
    (roomList reg (dataMeetingId data)).filter (fun p => decide (p.userId ≠ uid))

/-- The `join-meeting` handler body after the collaborator awaits
resolved (lines 83–120): emit `chat-history` to the joining socket,
store the deduplicated list, broadcast `user-joined` to the other
members and the full `participants` roster (the freshly stored list,
read back on line 120) to the whole room. -/
def joinMeeting (reg : Registry) (uid : String) (data : JoinData)
    (history : List ChatPayload) (prof : LookupResult) : JoinResult :=
  { reg := setRoom reg (dataMeetingId data) (joinNewList reg uid data prof)
  , emits := [ ⟨.toSocket, .chatHistory history⟩
             , ⟨.broadcastExcept (dataMeetingId data),
                 .userJoined uid (getUserData prof).1
                   (jsOrStr (dataClientPhotoURL data) (getUserData prof).2)⟩
             , ⟨.toRoom (dataMeetingId data),
                 .participantsList (joinNewList reg uid data prof)⟩ ] }

/-- Result of running the whole `join-meeting` handler, `completed` is
false when an un-caught awaited promise rejected partway. -/
structure JoinRunResult where
  reg : Registry
  emits : List Emit
  completed : Bool
deriving DecidableEq, Repr

/-- The whole `join-meeting` handler (lines 74–121).  The history fetch
`await MessageDAO.getMessages(meetingId)` (line 84) has no surrounding
try/catch: if that promise rejects, the async handler aborts right
there — nothing is emitted and the registry is untouched. -/
def joinMeetingRun (reg : Registry) (uid : String) (data : JoinData)
    (historyRes : Except Unit (List ChatPayload)) (prof : LookupResult) :
    JoinRunResult :=
  match historyRes with
  | .error _ => ⟨reg, [], false⟩
  | .ok history =>
      let r := joinMeeting reg uid data history prof
      ⟨r.reg, r.emits, true⟩

/-- `participants[meetingId].find(p => p.userId === uid)` followed by an
in-place mutation of the found record's media flags: only the first
matching element changes. -/
def updateFirst (l : List Participant) (uid : String) (mu vo : Bool) :
    List Participant :=
  match l with
  | [] => []
  | p :: rest =>
      if p.userId = uid then { p with isMuted := mu, isVideoOff := vo } :: rest
      else p :: updateFirst rest uid mu vo

/-- The `update-media-state` handler (lines 129–150): returns early when
the room key is absent; when the user is found, mutates that record in
place and emits `media-state-updated` to the whole room; otherwise does
nothing.  No roster is re-broadcast (deliberately removed in the
source). -/
def updateMedia (reg : Registry) (uid meetingId : String) (mu vo : Bool) :
    Registry × List Emit :=
  if hasRoomB reg meetingId then
    let l := roomList reg meetingId
    if l.any (fun p => decide (p.userId = uid)) then
      (setRoom reg meetingId (updateFirst l uid mu vo),
       [⟨.toRoom meetingId, .mediaStateUpdated uid mu vo⟩])
    else (reg, [])
  else (reg, [])

/-- Outcome of the raw Firestore read in `send-message` (line 161) when
the awaited promise resolves. -/
structure UserDoc where
  docExists : Bool
  displayName : Option String
deriving DecidableEq, Repr

/-- An action of the `send-message` handler, in execution order: an
emission or the `MessageDAO.createMessage` persistence call. -/
inductive SendAction where
  | emitA (e : Emit)
  | persistA (meetingId : String) (p : ChatPayload)
deriving DecidableEq, Repr

/-- The `send-message` handler (lines 158–184).  The profile read is a
bare `await` with no try/catch: a rejection aborts the handler before
anything is emitted.  Otherwise the payload is built
(`userData.displayName`, or `"User"` when the document does not exist),
`new-message` is emitted to the whole room, and only then is the message
persisted; a persistence failure happens after the broadcast.  Returns
the ordered action trace and whether the handler ran to completion. -/
def sendMessageRun (uid meetingId message : String)
    (udocRes : Except Unit UserDoc) (persistRes : Except Unit Unit)
    (now : String) : List SendAction × Bool :=
  match udocRes with
  | .error _ => ([], false)
  | .ok udoc =>
      let userName : Option String :=
        if udoc.docExists then udoc.displayName else some "User"
      let payload : ChatPayload :=
        { meetingId := meetingId, senderId := uid, userName := userName
        , message := message, time := now }
      ([ .emitA ⟨.toRoom meetingId, .newMessage payload⟩
       , .persistA meetingId payload ],
       persistRes.isOk)

/-- One iteration of the disconnect loop (lines 197–216) for the room
entry `kv`: filter out every record of `uid`; when the length changed,
emit `user-left` and the refreshed roster to the room. -/
def disconnectRoom (uid userName : String)
    (kv : String × List Participant) :
    (String × List Participant) × List Emit :=
  ((kv.1, kv.2.filter (fun p => decide (p.userId ≠ uid))),
   if kv.2.length ≠ (kv.2.filter (fun p => decide (p.userId ≠ uid))).length then
     [ ⟨.toRoom kv.1, .userLeft uid userName⟩
     , ⟨.toRoom kv.1,
        .participantsList (kv.2.filter (fun p => decide (p.userId ≠ uid)))⟩ ]
   else [])

/-- The `disconnect` handler (lines 191–217): resolve the display name
through the fail-soft `getUserData`, then sweep every room of the
registry, removing `uid` and broadcasting departure only where a removal
actually happened.  The handler depends only on `uid`, never on the
socket id: any connection carrying the same `uid` triggers the same
sweep. -/
def disconnect (reg : Registry) (uid : String) (prof : LookupResult) :
    Registry × List Emit :=
  let userName := (getUserData prof).1
  (reg.map (fun kv => (disconnectRoom uid userName kv).1),
   (reg.map (fun kv => (disconnectRoom uid userName kv).2)).flatten)

/-- Folding a sequence of completed joins by one user over the
registry. -/
def joinSeq (reg : Registry) (uid : String)
    (js : List (JoinData × List ChatPayload × LookupResult)) : Registry :=
  js.foldl (fun r j => (joinMeeting r uid j.1 j.2.1 j.2.2).reg) reg

/-- Recognises a `user-left` emission addressed to room `r`. -/
def isUserLeftFor (r : String) (e : Emit) : Bool :=
  match e.target, e.event with
  | .toRoom rr, .userLeft _ _ => decide (rr = r)
  | _, _ => false


/-! ### Registry lemmas -/

lemma setEntry_eq (r : String) (l v : List Participant) :
    setEntry r l (r, v) = (r, l) := by
  simp [setEntry]

lemma setEntry_ne (r k : String) (hk : k ≠ r) (l v : List Participant) :
    setEntry r l (k, v) = (k, v) := by
  simp [setEntry, hk]

lemma roomList_map_set (r : String) (l : List Participant) :
    ∀ reg : Registry,
      roomList (reg.map (setEntry r l)) r = if hasRoomB reg r then l else []
  | [] => by simp [roomList, hasRoomB]
  | (k, v) :: rest => by
      by_cases hk : k = r
      · subst hk
        rw [List.map_cons, setEntry_eq]
        simp [roomList, hasRoomB]
      · rw [List.map_cons, setEntry_ne r k hk]
        simp only [roomList, hasRoomB, if_neg hk]
        exact roomList_map_set r l rest

lemma roomList_append_of_not_has (r : String) (reg2 : Registry) :
    ∀ reg : Registry, hasRoomB reg r = false →
      roomList (reg ++ reg2) r = roomList reg2 r
  | [], _ => by simp [roomList]
  | (k, v) :: rest, h => by
      by_cases hk : k = r
      · rw [hasRoomB, if_pos hk] at h
        exact absurd h (by simp)
      · rw [hasRoomB, if_neg hk] at h
        rw [List.cons_append, roomList, if_neg hk]
        exact roomList_append_of_not_has r reg2 rest h

lemma roomList_setRoom_self (reg : Registry) (r : String)
    (l : List Participant) : roomList (setRoom reg r l) r = l := by
  unfold setRoom
  by_cases h : hasRoomB reg r
  · simp [h, roomList_map_set]
  · simp only [h, if_false, Bool.false_eq_true]
    rw [roomList_append_of_not_has r _ reg (by simpa using h)]
    simp [roomList]

lemma roomList_map_set_ne (r rr : String) (hrr : rr ≠ r)
    (l : List Participant) :
    ∀ reg : Registry,
      roomList (reg.map (setEntry r l)) rr = roomList reg rr
  | [] => by simp [roomList]
  | (k, v) :: rest => by
      by_cases hk : k = r
      · subst hk
        rw [List.map_cons, setEntry_eq]
        rw [roomList, if_neg (Ne.symm hrr), roomList, if_neg (Ne.symm hrr)]
        exact roomList_map_set_ne k rr hrr l rest
      · rw [List.map_cons, setEntry_ne r k hk]
        rw [roomList, roomList]
        by_cases hk2 : k = rr
        · rw [if_pos hk2, if_pos hk2]
        · rw [if_neg hk2, if_neg hk2]
          exact roomList_map_set_ne r rr hrr l rest

lemma roomList_append_singleton_ne (r rr : String) (hrr : rr ≠ r)
    (l : List Participant) :
    ∀ reg : Registry, roomList (reg ++ [(r, l)]) rr = roomList reg rr
  | [] => by simp [roomList, Ne.symm hrr]
  | (k, v) :: rest => by
      rw [List.cons_append, roomList, roomList]
      by_cases hk : k = rr
      · rw [if_pos hk, if_pos hk]
      · rw [if_neg hk, if_neg hk]
        exact roomList_append_singleton_ne r rr hrr l rest

lemma roomList_setRoom_ne (reg : Registry) (r rr : String) (hrr : rr ≠ r)
    (l : List Participant) :
    roomList (setRoom reg r l) rr = roomList reg rr := by
  unfold setRoom
  by_cases h : hasRoomB reg r
  · simp [h, roomList_map_set_ne r rr hrr]
  · simp only [h, if_false, Bool.false_eq_true]
    exact roomList_append_singleton_ne r rr hrr l reg

lemma hasRoomB_iff_mem (r : String) :
    ∀ reg : Registry, hasRoomB reg r = true ↔ r ∈ reg.map Prod.fst
  | [] => by simp [hasRoomB]
  | (k, v) :: rest => by
      by_cases hk : k = r
      · subst hk; simp [hasRoomB]
      · rw [hasRoomB, if_neg hk]
        simp only [List.map_cons, List.mem_cons]
        rw [hasRoomB_iff_mem r rest]
        constructor
        · exact fun h => Or.inr h
        · rintro (h | h)
          · exact absurd h.symm hk
          · exact h

lemma keys_map_set (r : String) (l : List Participant) :
    ∀ reg : Registry,
      (reg.map (setEntry r l)).map Prod.fst = reg.map Prod.fst
  | [] => by simp
  | (k, v) :: rest => by
      by_cases hk : k = r
      · subst hk
        rw [List.map_cons, setEntry_eq]
        simp only [List.map_cons]
        rw [keys_map_set k l rest]
      · rw [List.map_cons, setEntry_ne r k hk]
        simp only [List.map_cons]
        rw [keys_map_set r l rest]

lemma nodup_keys_setRoom (reg : Registry) (r : String) (l : List Participant)
    (hnd : (reg.map Prod.fst).Nodup) :
    ((setRoom reg r l).map Prod.fst).Nodup := by
  unfold setRoom
  by_cases h : hasRoomB reg r
  · rw [if_pos h, keys_map_set]
    exact hnd
  · have hr : r ∉ reg.map Prod.fst := fun hmem =>
      absurd ((hasRoomB_iff_mem r reg).mpr hmem) (by simp [h])
    simp only [h, if_false, Bool.false_eq_true, List.map_append, List.map_cons,
      List.map_nil]
    refine List.Nodup.append hnd (List.nodup_singleton r) ?_
    intro a ha hb
    rw [List.mem_singleton] at hb
    subst hb
    exact hr ha

/-! ### Filter lemmas -/

lemma filter_eq_of_ne (uid : String) (l : List Participant)
    (h : ∀ p ∈ l, p.userId ≠ uid) :
    l.filter (fun p => decide (p.userId ≠ uid)) = l := by
  rw [List.filter_eq_self]
  intro a ha
  simpa using h a ha

lemma filter_compose_nil (uid : String) (l : List Participant) :
    (l.filter (fun p => decide (p.userId ≠ uid))).filter
      (fun p => decide (p.userId = uid)) = [] := by
  rw [List.filter_eq_nil_iff]
  intro a ha
  have := (List.mem_filter.mp ha).2
  simp at this
  simp [this]

lemma removal_iff (uid : String) (l : List Participant) :
    l.length ≠ (l.filter (fun p => decide (p.userId ≠ uid))).length ↔
      ∃ p ∈ l, p.userId = uid := by
  constructor
  · intro h
    by_contra hno
    push_neg at hno
    rw [filter_eq_of_ne uid l hno] at h
    exact h rfl
  · rintro ⟨p, hp, hpe⟩ hEq
    have hsub := List.filter_sublist (l := l)
      (p := fun p => decide (p.userId ≠ uid))
    have hfe := hsub.eq_of_length hEq.symm
    have : p ∈ l.filter (fun p => decide (p.userId ≠ uid)) := by
      rw [hfe]; exact hp
    have := (List.mem_filter.mp this).2
    simp [hpe] at this

/-! ### Join characterization -/

lemma join_roomList (reg : Registry) (uid : String) (data : JoinData)
    (history : List ChatPayload) (prof : LookupResult) :
    roomList (joinMeeting reg uid data history prof).reg (dataMeetingId data) =
      (roomList reg (dataMeetingId data)).filter
          (fun p => decide (p.userId ≠ uid)) ++
        (if uid ≠ "" then [mkJoinParticipant uid data prof] else []) := by
  show roomList
      (setRoom reg (dataMeetingId data) (joinNewList reg uid data prof))
      (dataMeetingId data) = _
  rw [roomList_setRoom_self]
  unfold joinNewList
  by_cases h : uid = ""
  · simp [h]
  · simp [h]

lemma join_roomList_ne (reg : Registry) (uid : String) (data : JoinData)
    (history : List ChatPayload) (prof : LookupResult) (r : String)
    (hr : r ≠ dataMeetingId data) :
    roomList (joinMeeting reg uid data history prof).reg r = roomList reg r := by
  show roomList
      (setRoom reg (dataMeetingId data) (joinNewList reg uid data prof)) r =
    roomList reg r
  exact roomList_setRoom_ne reg (dataMeetingId data) r hr _

lemma join_filter_eq (reg : Registry) (uid : String) (data : JoinData)
    (history : List ChatPayload) (prof : LookupResult) (h : uid ≠ "") :
    (roomList (joinMeeting reg uid data history prof).reg
        (dataMeetingId data)).filter (fun p => decide (p.userId = uid)) =
      [mkJoinParticipant uid data prof] := by
  rw [join_roomList, List.filter_append, filter_compose_nil]
  simp [h, mkJoinParticipant]

/-! ### Disconnect characterization -/

/-- The pure registry effect of the disconnect sweep on one entry. -/
def dropUser (uid : String) (kv : String × List Participant) :
    String × List Participant :=
  (kv.1, kv.2.filter (fun p => decide (p.userId ≠ uid)))

lemma dropUser_pair (uid k : String) (v : List Participant) :
    dropUser uid (k, v) =
      (k, v.filter (fun p => decide (p.userId ≠ uid))) := rfl

lemma disconnect_fst (reg : Registry) (uid : String) (prof : LookupResult) :
    (disconnect reg uid prof).1 = reg.map (dropUser uid) := rfl

lemma roomList_map_dropUser (uid : String) :
    ∀ (reg : Registry) (r : String),
      roomList (reg.map (dropUser uid)) r =
        (roomList reg r).filter (fun p => decide (p.userId ≠ uid))
  | [], _ => rfl
  | (k, v) :: rest, r => by
      rw [List.map_cons, dropUser_pair, roomList, roomList]
      by_cases hk : k = r
      · rw [if_pos hk, if_pos hk]
      · rw [if_neg hk, if_neg hk]
        exact roomList_map_dropUser uid rest r

lemma roomList_disconnect (uid : String) (prof : LookupResult)
    (reg : Registry) (r : String) :
    roomList (disconnect reg uid prof).1 r =
      (roomList reg r).filter (fun p => decide (p.userId ≠ uid)) := by
  rw [disconnect_fst]
  exact roomList_map_dropUser uid reg r

lemma disconnectRoom_snd_nil (uid un k : String) (v : List Participant)
    (h : ∀ p ∈ v, p.userId ≠ uid) :
    (disconnectRoom uid un (k, v)).2 = [] := by
  unfold disconnectRoom
  rw [if_neg]
  rw [filter_eq_of_ne uid v h]
  exact fun hne => hne rfl

lemma disconnectRoom_targets (uid un k : String) (v : List Participant) :
    ∀ e ∈ (disconnectRoom uid un (k, v)).2, e.target = .toRoom k := by
  unfold disconnectRoom
  by_cases hc : v.length ≠ (v.filter (fun p => decide (p.userId ≠ uid))).length
  · rw [if_pos hc]
    intro e he
    rw [List.mem_cons, List.mem_cons] at he
    rcases he with he | he | he
    · subst he; rfl
    · subst he; rfl
    · exact absurd he (List.not_mem_nil e)
  · rw [if_neg hc]
    intro e he
    exact absurd he (List.not_mem_nil e)

lemma mem_eq_roomList (r : String) :
    ∀ reg : Registry, (reg.map Prod.fst).Nodup →
      ∀ kv ∈ reg, kv.1 = r → kv.2 = roomList reg r
  | [], _, _, hkv, _ => absurd hkv (List.not_mem_nil _)
  | (k, v) :: rest, hnd, kv, hkv, hkr => by
      rw [List.map_cons, List.nodup_cons] at hnd
      rcases List.mem_cons.mp hkv with h | h
      · subst h
        rw [roomList, if_pos hkr]
      · have hkvr : r ∈ rest.map Prod.fst := by
          rw [← hkr]
          exact List.mem_map_of_mem Prod.fst h
        have hk : k ≠ r := fun hke => hnd.1 (hke ▸ hkvr)
        rw [roomList, if_neg hk]
        exact mem_eq_roomList r rest hnd.2 kv h hkr

lemma disconnect_snd (reg : Registry) (uid : String) (prof : LookupResult) :
    (disconnect reg uid prof).2 =
      (reg.map (fun kv =>
        (disconnectRoom uid (getUserData prof).1 kv).2)).flatten := rfl

lemma disconnect_silent (reg : Registry) (uid r : String) (prof : LookupResult)
    (hnd : (reg.map Prod.fst).Nodup)
    (h : ∀ p ∈ roomList reg r, p.userId ≠ uid) :
    ∀ e ∈ (disconnect reg uid prof).2, e.target ≠ .toRoom r := by
  intro e he htgt
  rw [disconnect_snd] at he
  rw [List.mem_flatten] at he
  obtain ⟨l, hl, hel⟩ := he
  rw [List.mem_map] at hl
  obtain ⟨kv, hkv, hlkv⟩ := hl
  obtain ⟨k, v⟩ := kv
  subst hlkv
  have htk := disconnectRoom_targets uid (getUserData prof).1 k v e hel
  rw [htgt] at htk
  have hkr : k = r := by simpa using htk.symm
  subst hkr
  have hveq : v = roomList reg k :=
    mem_eq_roomList k reg hnd (k, v) hkv rfl
  have hnil : (disconnectRoom uid (getUserData prof).1 (k, v)).2 = [] :=
    disconnectRoom_snd_nil uid (getUserData prof).1 k v
      (fun p hp => h p (hveq ▸ hp))
  rw [hnil] at hel
  exact absurd hel (List.not_mem_nil e)

lemma countP_disconnectRoom_ne (uid un r k : String) (hk : k ≠ r)
    (v : List Participant) :
    ((disconnectRoom uid un (k, v)).2).countP (isUserLeftFor r) = 0 := by
  rw [List.countP_eq_zero]
  intro e he
  have htk := disconnectRoom_targets uid un k v e he
  intro hcount
  unfold isUserLeftFor at hcount
  obtain ⟨t, ev⟩ := e
  simp only at htk
  subst htk
  cases ev <;> simp_all

lemma countP_disconnectRoom_self (uid un r : String) (v : List Participant) :
    ((disconnectRoom uid un (r, v)).2).countP (isUserLeftFor r) =
      if v.any (fun p => decide (p.userId = uid)) then 1 else 0 := by
  unfold disconnectRoom
  by_cases hc : v.length ≠ (v.filter (fun p => decide (p.userId ≠ uid))).length
  · rw [if_pos hc]
    have hex : ∃ p ∈ v, p.userId = uid := (removal_iff uid v).mp hc
    have hany : v.any (fun p => decide (p.userId = uid)) = true := by
      rw [List.any_eq_true]
      obtain ⟨p, hp, hpe⟩ := hex
      exact ⟨p, hp, by simpa using hpe⟩
    rw [if_pos hany]
    simp [List.countP_cons, isUserLeftFor]
  · rw [if_neg hc]
    have hno : ¬ ∃ p ∈ v, p.userId = uid := fun hex =>
      hc ((removal_iff uid v).mpr hex)
    have hany : v.any (fun p => decide (p.userId = uid)) = false := by
      rw [Bool.eq_false_iff]
      intro ha
      rw [List.any_eq_true] at ha
      obtain ⟨p, hp, hpe⟩ := ha
      exact hno ⟨p, hp, by simpa using hpe⟩
    rw [hany]
    simp

lemma countP_disconnect_zero_of_notMem (uid un r : String) :
    ∀ reg : Registry, r ∉ reg.map Prod.fst →
      ((reg.map (fun kv =>
        (disconnectRoom uid un kv).2)).flatten).countP (isUserLeftFor r) = 0
  | [], _ => rfl
  | (k, v) :: rest, hmem => by
      rw [List.map_cons, List.flatten_cons, List.countP_append]
      rw [List.map_cons, List.mem_cons] at hmem
      push_neg at hmem
      rw [countP_disconnectRoom_ne uid un r k (fun hh => hmem.1 hh.symm) v]
      rw [countP_disconnect_zero_of_notMem uid un r rest hmem.2]

lemma countP_disconnect_go (uid un r : String) :
    ∀ reg : Registry, (reg.map Prod.fst).Nodup →
      ((reg.map (fun kv =>
        (disconnectRoom uid un kv).2)).flatten).countP (isUserLeftFor r) =
        if (roomList reg r).any (fun p => decide (p.userId = uid)) then 1 else 0
  | [], _ => by simp [roomList]
  | (k, v) :: rest, hnd => by
      rw [List.map_cons, List.flatten_cons, List.countP_append]
      rw [List.map_cons, List.nodup_cons] at hnd
      by_cases hk : k = r
      · subst hk
        rw [countP_disconnectRoom_self uid un k v]
        rw [countP_disconnect_zero_of_notMem uid un k rest hnd.1]
        rw [roomList, if_pos rfl, Nat.add_zero]
      · rw [countP_disconnectRoom_ne uid un r k hk v, Nat.zero_add]
        rw [roomList, if_neg hk]
        exact countP_disconnect_go uid un r rest hnd.2

lemma countP_disconnect (reg : Registry) (uid r : String)
    (prof : LookupResult) (hnd : (reg.map Prod.fst).Nodup) :
    ((disconnect reg uid prof).2).countP (isUserLeftFor r) =
      if (roomList reg r).any (fun p => decide (p.userId = uid)) then 1
      else 0 := by
  rw [disconnect_snd]
  exact countP_disconnect_go uid (getUserData prof).1 r reg hnd

/-! ### Media-update characterization -/

lemma hasRoomB_false_roomList (r : String) :
    ∀ reg : Registry, hasRoomB reg r = false → roomList reg r = []
  | [], _ => rfl
  | (k, v) :: rest, h => by
      by_cases hk : k = r
      · rw [hasRoomB, if_pos hk] at h
        exact absurd h (by simp)
      · rw [hasRoomB, if_neg hk] at h
        rw [roomList, if_neg hk]
        exact hasRoomB_false_roomList r rest h

lemma updateFirst_decomp (uid : String) (mu vo : Bool) :
    ∀ l : List Participant, (∃ p ∈ l, p.userId = uid) →
      ∃ pre p post,
        l = pre ++ p :: post ∧ (∀ q ∈ pre, q.userId ≠ uid) ∧
        p.userId = uid ∧
        updateFirst l uid mu vo =
          pre ++ { p with isMuted := mu, isVideoOff := vo } :: post
  | [], hex => absurd hex (by simp)
  | q :: rest, hex => by
      by_cases hq : q.userId = uid
      · refine ⟨[], q, rest, by simp, by simp, hq, ?_⟩
        rw [updateFirst, if_pos hq]
        simp
      · have hex2 : ∃ p ∈ rest, p.userId = uid := by
          obtain ⟨p, hp, hpe⟩ := hex
          rcases List.mem_cons.mp hp with h | h
          · exact absurd (h ▸ hpe) hq
          · exact ⟨p, h, hpe⟩
        obtain ⟨pre, p, post, hsplit, hpre, hpe, hupd⟩ :=
          updateFirst_decomp uid mu vo rest hex2
        refine ⟨q :: pre, p, post, by rw [hsplit]; rfl, ?_, hpe, ?_⟩
        · intro x hx
          rcases List.mem_cons.mp hx with h | h
          · exact h ▸ hq
          · exact hpre x h
        · rw [updateFirst, if_neg hq, hupd]
          rfl

lemma updateMedia_noop (reg : Registry) (uid m : String) (mu vo : Bool)
    (h : ∀ p ∈ roomList reg m, p.userId ≠ uid) :
    updateMedia reg uid m mu vo = (reg, []) := by
  unfold updateMedia
  by_cases hr : hasRoomB reg m
  · rw [if_pos hr]
    have hany : (roomList reg m).any (fun p => decide (p.userId = uid)) = false := by
      rw [Bool.eq_false_iff]
      intro ha
      rw [List.any_eq_true] at ha
      obtain ⟨p, hp, hpe⟩ := ha
      exact h p hp (by simpa using hpe)
    simp [hany]
  · rw [if_neg hr]

lemma join_roomList_self (reg : Registry) (uid : String) (data : JoinData)
    (history : List ChatPayload) (prof : LookupResult) :
    roomList (joinMeeting reg uid data history prof).reg (dataMeetingId data) =
      joinNewList reg uid data prof := by
  show roomList
      (setRoom reg (dataMeetingId data) (joinNewList reg uid data prof))
      (dataMeetingId data) = _
  exact roomList_setRoom_self reg (dataMeetingId data) _

/-! ### Claims -/

/-- Claim C1: for every sequence of completed joins by the same `userId`
into the same `roomId`, starting from any registry state, the room's
participant list afterwards contains exactly one entry for that
`userId`, and that entry carries the profile and media state supplied by
the latest join (the join first removes any pre-existing entry for the
user, then appends a fresh one).  `uid ≠ ""` holds for every connection
that the server accepts (the falsy-uid guard on lines 35–39 and the
`if (uid)` guard on line 98). -/
theorem C1_join_dedup_replace (reg : Registry) (uid roomId : String)
    (js : List (JoinData × List ChatPayload × LookupResult))
    (h0 : uid ≠ "") (h1 : js ≠ [])
    (h2 : ∀ j ∈ js, dataMeetingId j.1 = roomId) :
    (roomList (joinSeq reg uid js) roomId).filter
        (fun p => decide (p.userId = uid)) =
      [mkJoinParticipant uid (js.getLast h1).1 (js.getLast h1).2.2] := by
  rcases List.eq_nil_or_concat js with hnil | ⟨init, last, hconcat⟩
  · exact absurd hnil h1
  · subst hconcat
    have hlast : (init.concat last).getLast h1 = last :=
      List.getLast_concat' init
    rw [hlast]
    unfold joinSeq
    rw [List.concat_eq_append, List.foldl_append, List.foldl_cons,
      List.foldl_nil]
    have hm : dataMeetingId last.1 = roomId :=
      h2 last (by simp [List.concat_eq_append])
    rw [← hm]
    exact join_filter_eq _ uid last.1 last.2.1 last.2.2 h0

theorem C1_witness :
    ("u1" : String) ≠ "" ∧
    (roomList
        (joinSeq [] "u1"
          [ (JoinData.str "r1", ([], LookupResult.failure))
          , (JoinData.obj "r1" none (some false) none,
              ([], LookupResult.found (some "Ana") none)) ]) "r1").filter
        (fun p => decide (p.userId = "u1")) =
      [mkJoinParticipant "u1" (JoinData.obj "r1" none (some false) none)
        (LookupResult.found (some "Ana") none)] :=
  ⟨by decide,
   C1_join_dedup_replace [] "u1" "r1"
     [ (JoinData.str "r1", ([], LookupResult.failure))
     , (JoinData.obj "r1" none (some false) none,
         ([], LookupResult.found (some "Ana") none)) ]
     (by decide) (by decide) (by decide)⟩

/-- Claim C3: for every `sendMessage` execution whose profile read
resolves, the handler's action trace is exactly the `new-message`
emission to the whole room (`io.to(meetingId)`, which includes the
sender) followed by the `MessageDAO.createMessage` persistence call:
the broadcast strictly precedes the persistence call and does not
depend on its outcome `pr`. -/
theorem C3_broadcast_before_persist (uid m msg now : String)
    (udoc : UserDoc) (pr : Except Unit Unit) :
    ∃ payload : ChatPayload, payload.senderId = uid ∧
      (sendMessageRun uid m msg (.ok udoc) pr now).1 =
        [ .emitA ⟨.toRoom m, .newMessage payload⟩
        , .persistA m payload ] :=
  ⟨{ meetingId := m, senderId := uid
   , userName := if udoc.docExists then udoc.displayName else some "User"
   , message := msg, time := now }, rfl, rfl⟩

/-- Claim C4: every successful join produces exactly three deliveries,
in order: the chat history to the joining connection only
(`socket.emit`), `user-joined` to every room member except the joiner
(`socket.broadcast.to`), and the full roster — the room's current
participant list — to every member including the joiner (`io.to`). -/
theorem C4_join_delivery_targets (reg : Registry) (uid : String)
    (data : JoinData) (history : List ChatPayload) (prof : LookupResult) :
    (joinMeeting reg uid data history prof).emits =
      [ ⟨.toSocket, .chatHistory history⟩
      , ⟨.broadcastExcept (dataMeetingId data),
          .userJoined uid (getUserData prof).1
            (jsOrStr (dataClientPhotoURL data) (getUserData prof).2)⟩
      , ⟨.toRoom (dataMeetingId data),
          .participantsList
            (roomList (joinMeeting reg uid data history prof).reg
              (dataMeetingId data))⟩ ] := by
  rw [join_roomList_self]
  rfl

/-- Claim C7: an `update-media-state` event for a `userId` that is not
in the target room's participant list (including when the room key does
not exist at all) is a silent no-op: the registry is returned unchanged,
nothing is emitted, and the handler is total — no error reaches the
client. -/
theorem C7_update_media_absent_silent (reg : Registry) (uid m : String)
    (mu vo : Bool) (h : ∀ p ∈ roomList reg m, p.userId ≠ uid) :
    updateMedia reg uid m mu vo = (reg, []) :=
  updateMedia_noop reg uid m mu vo h

theorem C7_witness :
    (∀ p ∈ roomList [("r1", [Participant.mk "u2" "Bob" none false false])]
        "r1", p.userId ≠ "u1") ∧
    updateMedia [("r1", [Participant.mk "u2" "Bob" none false false])]
        "u1" "r1" true false =
      ([("r1", [Participant.mk "u2" "Bob" none false false])], []) :=
  ⟨by decide,
   C7_update_media_absent_silent
     [("r1", [Participant.mk "u2" "Bob" none false false])]
     "u1" "r1" true false (by decide)⟩

/-- Claim C8: a join whose payload omits the media-state fields (a
bare-string payload, or an object payload whose `isMuted` / `isVideoOff`
is `undefined`) creates its Participant with `isMuted = true` and
`isVideoOff = true`. -/
theorem C8_media_defaults_true (reg : Registry) (uid : String)
    (data : JoinData) (history : List ChatPayload) (prof : LookupResult)
    (h0 : uid ≠ "") (hm : dataMutedField data = none)
    (hv : dataVideoField data = none) :
    (roomList (joinMeeting reg uid data history prof).reg
        (dataMeetingId data)).filter (fun p => decide (p.userId = uid)) =
      [mkJoinParticipant uid data prof] ∧
    (mkJoinParticipant uid data prof).isMuted = true ∧
    (mkJoinParticipant uid data prof).isVideoOff = true := by
  refine ⟨join_filter_eq reg uid data history prof h0, ?_, ?_⟩
  · simp [mkJoinParticipant, dataIsMuted, hm]
  · simp [mkJoinParticipant, dataIsVideoOff, hv]

theorem C8_witness :
    ("u1" : String) ≠ "" ∧
    dataMutedField (JoinData.str "r1") = none ∧
    dataVideoField (JoinData.str "r1") = none ∧
    ((roomList (joinMeeting [] "u1" (JoinData.str "r1") []
          LookupResult.notFound).reg "r1").filter
        (fun p => decide (p.userId = "u1")) =
      [mkJoinParticipant "u1" (JoinData.str "r1") LookupResult.notFound] ∧
    (mkJoinParticipant "u1" (JoinData.str "r1")
        LookupResult.notFound).isMuted = true ∧
    (mkJoinParticipant "u1" (JoinData.str "r1")
        LookupResult.notFound).isVideoOff = true) :=
  ⟨by decide, by decide, by decide,
   C8_media_defaults_true [] "u1" (JoinData.str "r1") []
     LookupResult.notFound (by decide) (by decide) (by decide)⟩

lemma updateMedia_found (reg : Registry) (uid m : String) (mu vo : Bool)
    (h : ∃ p ∈ roomList reg m, p.userId = uid) :
    updateMedia reg uid m mu vo =
      (setRoom reg m (updateFirst (roomList reg m) uid mu vo),
       [⟨.toRoom m, .mediaStateUpdated uid mu vo⟩]) := by
  have hne : roomList reg m ≠ [] := by
    obtain ⟨p, hp, _⟩ := h
    intro hnil
    rw [hnil] at hp
    exact absurd hp (List.not_mem_nil p)
  have hroom : hasRoomB reg m = true := by
    by_contra hc
    exact hne (hasRoomB_false_roomList m reg (by simpa using hc))
  have hany : (roomList reg m).any (fun p => decide (p.userId = uid)) = true := by
    rw [List.any_eq_true]
    obtain ⟨p, hp, hpe⟩ := h
    exact ⟨p, hp, by simpa using hpe⟩
  unfold updateMedia
  rw [if_pos hroom]
  simp [hany]

/-- Claim C9: an `update-media-state` event for a user present in the
room changes only that participant's `isMuted` and `isVideoOff`: its
`userId`, `userName` and `photoURL` are kept (the record update below
touches only the two media fields), every other entry is unchanged, the
list keeps its length and order, other rooms are untouched, and the only
emission is the targeted `media-state-updated` event (no roster
resend). -/
theorem C9_update_media_frame (reg : Registry) (uid m : String)
    (mu vo : Bool) (h : ∃ p ∈ roomList reg m, p.userId = uid) :
    ∃ pre p post,
      roomList reg m = pre ++ p :: post ∧
      (∀ q ∈ pre, q.userId ≠ uid) ∧ p.userId = uid ∧
      roomList (updateMedia reg uid m mu vo).1 m =
        pre ++ { p with isMuted := mu, isVideoOff := vo } :: post ∧
      (∀ r, r ≠ m →
        roomList (updateMedia reg uid m mu vo).1 r = roomList reg r) ∧
      (updateMedia reg uid m mu vo).2 =
        [⟨.toRoom m, .mediaStateUpdated uid mu vo⟩] := by
  have hfound := updateMedia_found reg uid m mu vo h
  obtain ⟨pre, p, post, hsplit, hpre, hpe, hupd⟩ :=
    updateFirst_decomp uid mu vo (roomList reg m) h
  refine ⟨pre, p, post, hsplit, hpre, hpe, ?_, ?_, ?_⟩
  · rw [hfound]
    show roomList (setRoom reg m (updateFirst (roomList reg m) uid mu vo)) m
      = _
    rw [roomList_setRoom_self, hupd]
  · intro r hrm
    rw [hfound]
    show roomList (setRoom reg m (updateFirst (roomList reg m) uid mu vo)) r
      = roomList reg r
    exact roomList_setRoom_ne reg m r hrm _
  · rw [hfound]

theorem C9_witness :
    (∃ p ∈ roomList
        [("r1", [Participant.mk "u1" "Ana" none true true,
                 Participant.mk "u2" "Bob" none false false])] "r1",
      p.userId = "u1") ∧
    (∃ pre p post,
      roomList
          [("r1", [Participant.mk "u1" "Ana" none true true,
                   Participant.mk "u2" "Bob" none false false])] "r1" =
        pre ++ p :: post ∧
      (∀ q ∈ pre, q.userId ≠ "u1") ∧ p.userId = "u1" ∧
      roomList (updateMedia
          [("r1", [Participant.mk "u1" "Ana" none true true,
                   Participant.mk "u2" "Bob" none false false])]
          "u1" "r1" false false).1 "r1" =
        pre ++ { p with isMuted := false, isVideoOff := false } :: post ∧
      (∀ r, r ≠ "r1" →
        roomList (updateMedia
            [("r1", [Participant.mk "u1" "Ana" none true true,
                     Participant.mk "u2" "Bob" none false false])]
            "u1" "r1" false false).1 r =
          roomList
            [("r1", [Participant.mk "u1" "Ana" none true true,
                     Participant.mk "u2" "Bob" none false false])] r) ∧
      (updateMedia
          [("r1", [Participant.mk "u1" "Ana" none true true,
                   Participant.mk "u2" "Bob" none false false])]
          "u1" "r1" false false).2 =
        [⟨.toRoom "r1", .mediaStateUpdated "u1" false false⟩]) :=
  ⟨⟨Participant.mk "u1" "Ana" none true true, by decide, by decide⟩,
   C9_update_media_frame
     [("r1", [Participant.mk "u1" "Ana" none true true,
              Participant.mk "u2" "Bob" none false false])]
     "u1" "r1" false false
     ⟨Participant.mk "u1" "Ana" none true true, by decide, by decide⟩⟩

/-- Claim C5: a disconnect for a `userId` with no entry in room `r`
emits nothing to `r` — neither `user-left` nor a roster — because the
handler broadcasts only when the filter actually shortened that room's
list.  (The code has no separate `leave` event; its only removal path is
the disconnect handler.) -/
theorem C5_noop_removal_silent (reg : Registry) (uid r : String)
    (prof : LookupResult) (hnd : (reg.map Prod.fst).Nodup)
    (h : ∀ p ∈ roomList reg r, p.userId ≠ uid) :
    ∀ e ∈ (disconnect reg uid prof).2, e.target ≠ .toRoom r :=
  disconnect_silent reg uid r prof hnd h

theorem C5_witness :
    ((([("r1", [Participant.mk "u2" "Bob" none false false]),
        ("r2", [Participant.mk "u1" "Ana" none true true])] :
          Registry).map Prod.fst).Nodup ∧
      ∀ p ∈ roomList
          [("r1", [Participant.mk "u2" "Bob" none false false]),
           ("r2", [Participant.mk "u1" "Ana" none true true])] "r1",
        p.userId ≠ "u1") ∧
    ∀ e ∈ (disconnect
        [("r1", [Participant.mk "u2" "Bob" none false false]),
         ("r2", [Participant.mk "u1" "Ana" none true true])]
        "u1" LookupResult.notFound).2, e.target ≠ .toRoom "r1" :=
  ⟨⟨by decide, by decide⟩,
   C5_noop_removal_silent
     [("r1", [Participant.mk "u2" "Bob" none false false]),
      ("r2", [Participant.mk "u1" "Ana" none true true])]
     "u1" "r1" LookupResult.notFound (by decide) (by decide)⟩

/-- Claim C10: the disconnect sweep removes entries by `userId` across
every room of the registry — the handler closes over `uid` only, never
over the socket id, so a disconnect of either of two connections sharing
the same `userId` removes that user's entry from the room and emits
exactly one `user-left` broadcast for it. -/
theorem C10_disconnect_by_userId (reg : Registry) (uid r : String)
    (prof : LookupResult) (hnd : (reg.map Prod.fst).Nodup)
    (h : ∃ p ∈ roomList reg r, p.userId = uid) :
    (∀ p ∈ roomList (disconnect reg uid prof).1 r, p.userId ≠ uid) ∧
    ((disconnect reg uid prof).2).countP (isUserLeftFor r) = 1 := by
  constructor
  · intro p hp
    rw [roomList_disconnect] at hp
    have := (List.mem_filter.mp hp).2
    simpa using this
  · rw [countP_disconnect reg uid r prof hnd]
    have hany : (roomList reg r).any (fun p => decide (p.userId = uid))
        = true := by
      rw [List.any_eq_true]
      obtain ⟨p, hp, hpe⟩ := h
      exact ⟨p, hp, by simpa using hpe⟩
    rw [hany]
    simp

theorem C10_witness :
    ((([("r1", [Participant.mk "u1" "Ana" none true true,
                Participant.mk "u2" "Bob" none false false])] :
          Registry).map Prod.fst).Nodup ∧
      ∃ p ∈ roomList
          [("r1", [Participant.mk "u1" "Ana" none true true,
                   Participant.mk "u2" "Bob" none false false])] "r1",
        p.userId = "u1") ∧
    ((∀ p ∈ roomList (disconnect
        [("r1", [Participant.mk "u1" "Ana" none true true,
                 Participant.mk "u2" "Bob" none false false])]
        "u1" LookupResult.notFound).1 "r1", p.userId ≠ "u1") ∧
    ((disconnect
        [("r1", [Participant.mk "u1" "Ana" none true true,
                 Participant.mk "u2" "Bob" none false false])]
        "u1" LookupResult.notFound).2).countP (isUserLeftFor "r1") = 1) :=
  ⟨⟨by decide, ⟨Participant.mk "u1" "Ana" none true true, by decide,
    by decide⟩⟩,
   C10_disconnect_by_userId
     [("r1", [Participant.mk "u1" "Ana" none true true,
              Participant.mk "u2" "Bob" none false false])]
     "u1" "r1" LookupResult.notFound (by decide)
     ⟨Participant.mk "u1" "Ana" none true true, by decide, by decide⟩⟩

/-- Claim C6 counterexample: when the user is already in the room before
the join, join-then-disconnect does NOT return the participant list to
its pre-join state: the pre-existing entry of `u1` (with its old name
and media state) is replaced by the join and then removed by the
disconnect, leaving the room empty instead of restoring the original
entry. -/
theorem C6_counterexample :
    roomList
        (disconnect
          (joinMeeting [("r1", [Participant.mk "u1" "Old" none false false])]
            "u1" (JoinData.str "r1") [] LookupResult.failure).reg
          "u1" LookupResult.failure).1 "r1" = [] ∧
    roomList [("r1", [Participant.mk "u1" "Old" none false false])] "r1" =
      [Participant.mk "u1" "Old" none false false] ∧
    ([] : List Participant) ≠
      [Participant.mk "u1" "Old" none false false] := by
  refine ⟨by decide, by decide, by decide⟩

/-- Claim C6 (amended): if the joining user was NOT already in the room
(and `uid` is truthy, as the connection guard guarantees), a join
followed immediately by a disconnect returns the room's participant list
to its pre-join state, and exactly one `user-left` broadcast is emitted
for that room. -/
theorem C6_join_then_disconnect_amended (reg : Registry) (uid : String)
    (data : JoinData) (history : List ChatPayload)
    (prof1 prof2 : LookupResult)
    (hnd : (reg.map Prod.fst).Nodup) (h0 : uid ≠ "")
    (hpre : ∀ p ∈ roomList reg (dataMeetingId data), p.userId ≠ uid) :
    roomList
        (disconnect (joinMeeting reg uid data history prof1).reg uid
          prof2).1 (dataMeetingId data) =
      roomList reg (dataMeetingId data) ∧
    ((disconnect (joinMeeting reg uid data history prof1).reg uid
        prof2).2).countP (isUserLeftFor (dataMeetingId data)) = 1 := by
  have hreg1 : roomList (joinMeeting reg uid data history prof1).reg
      (dataMeetingId data) = joinNewList reg uid data prof1 :=
    join_roomList_self reg uid data history prof1
  have hnew : joinNewList reg uid data prof1 =
      roomList reg (dataMeetingId data) ++
        [mkJoinParticipant uid data prof1] := by
    unfold joinNewList
    rw [if_pos h0, filter_eq_of_ne uid _ hpre]
  have hnd1 : (((joinMeeting reg uid data history prof1).reg).map
      Prod.fst).Nodup := by
    show ((setRoom reg (dataMeetingId data)
        (joinNewList reg uid data prof1)).map Prod.fst).Nodup
    exact nodup_keys_setRoom reg (dataMeetingId data) _ hnd
  constructor
  · rw [roomList_disconnect, hreg1, hnew, List.filter_append,
      filter_eq_of_ne uid _ hpre]
    simp [mkJoinParticipant]
  · rw [countP_disconnect _ uid (dataMeetingId data) prof2 hnd1, hreg1,
      hnew]
    have hany : ((roomList reg (dataMeetingId data) ++
        [mkJoinParticipant uid data prof1]).any
          (fun p => decide (p.userId = uid))) = true := by
      rw [List.any_eq_true]
      exact ⟨mkJoinParticipant uid data prof1, by simp,
        by simp [mkJoinParticipant]⟩
    rw [hany]
    simp

theorem C6_witness :
    ((([("r1", [Participant.mk "u2" "Bob" none false false])] :
          Registry).map Prod.fst).Nodup ∧
      ("u1" : String) ≠ "" ∧
      (∀ p ∈ roomList
          [("r1", [Participant.mk "u2" "Bob" none false false])]
          (dataMeetingId (JoinData.str "r1")), p.userId ≠ "u1")) ∧
    (roomList
        (disconnect
          (joinMeeting [("r1", [Participant.mk "u2" "Bob" none false false])]
            "u1" (JoinData.str "r1") [] LookupResult.notFound).reg
          "u1" LookupResult.notFound).1 (dataMeetingId (JoinData.str "r1")) =
      roomList [("r1", [Participant.mk "u2" "Bob" none false false])]
        (dataMeetingId (JoinData.str "r1")) ∧
    ((disconnect
        (joinMeeting [("r1", [Participant.mk "u2" "Bob" none false false])]
          "u1" (JoinData.str "r1") [] LookupResult.notFound).reg
        "u1" LookupResult.notFound).2).countP
      (isUserLeftFor (dataMeetingId (JoinData.str "r1"))) = 1) :=
  ⟨⟨by decide, by decide, by decide⟩,
   C6_join_then_disconnect_amended
     [("r1", [Participant.mk "u2" "Bob" none false false])]
     "u1" (JoinData.str "r1") [] LookupResult.notFound LookupResult.notFound
     (by decide) (by decide) (by decide)⟩

/-- Claim C2 counterexample: a rejected history fetch during a join does
NOT degrade gracefully.  `await MessageDAO.getMessages(meetingId)`
(line 84) has no surrounding try/catch, so the rejection aborts the
handler before the registry mutation: the participant is not added
(the registry stays empty) and nothing — in particular no roster — is
broadcast, contradicting the claim that membership and broadcast still
complete. -/
theorem C2_counterexample :
    (joinMeetingRun [] "u1" (JoinData.str "r1") (Except.error ())
        LookupResult.failure).reg = [] ∧
    (joinMeetingRun [] "u1" (JoinData.str "r1") (Except.error ())
        LookupResult.failure).emits = [] ∧
    (roomList (joinMeetingRun [] "u1" (JoinData.str "r1") (Except.error ())
        LookupResult.failure).reg "r1").filter
      (fun p => decide (p.userId = "u1")) = [] :=
  ⟨rfl, rfl, rfl⟩

/-- Claim C2 (amended): graceful degradation holds exactly for the
collaborator calls the source guards.  (1) A failing profile lookup
during join is caught inside `getUserData`: the join completes, the
participant is stored with the default name `"User"`, and the roster is
still broadcast to the room.  (2) A failing `createMessage` append
during `send-message` cannot suppress the broadcast, which was emitted
before the persistence call.  But (3) a failing history fetch during
join aborts the handler before the registry mutation — no participant is
added, nothing is broadcast — and (4) a failing profile read during
`send-message` aborts before the broadcast — the message is never
emitted. -/
theorem C2_graceful_degradation_amended (reg : Registry)
    (uid m msg now : String) (data : JoinData) (history : List ChatPayload)
    (udoc : UserDoc) (pr : Except Unit Unit) (profB : LookupResult)
    (h0 : uid ≠ "") :
    ((joinMeetingRun reg uid data (.ok history) .failure).completed = true ∧
     (roomList (joinMeetingRun reg uid data (.ok history) .failure).reg
         (dataMeetingId data)).filter (fun p => decide (p.userId = uid)) =
       [mkJoinParticipant uid data .failure] ∧
     (mkJoinParticipant uid data .failure).userName = "User" ∧
     (⟨.toRoom (dataMeetingId data),
        .participantsList
          (roomList (joinMeetingRun reg uid data (.ok history) .failure).reg
            (dataMeetingId data))⟩ : Emit) ∈
       (joinMeetingRun reg uid data (.ok history) .failure).emits) ∧
    (∃ payload : ChatPayload,
      (sendMessageRun uid m msg (.ok udoc) (.error ()) now).1 =
        [.emitA ⟨.toRoom m, .newMessage payload⟩, .persistA m payload]) ∧
    joinMeetingRun reg uid data (.error ()) profB = ⟨reg, [], false⟩ ∧
    (sendMessageRun uid m msg (.error ()) pr now).1 = [] := by
  refine ⟨⟨rfl, ?_, rfl, ?_⟩, ?_, rfl, rfl⟩
  · exact join_filter_eq reg uid data history .failure h0
  · have hmem : (⟨.toRoom (dataMeetingId data),
        .participantsList
          (roomList (joinMeeting reg uid data history .failure).reg
            (dataMeetingId data))⟩ : Emit) ∈
        (joinMeeting reg uid data history .failure).emits := by
      rw [join_roomList_self]
      exact .tail _ (.tail _ (.head _))
    exact hmem
  · exact ⟨{ meetingId := m, senderId := uid
           , userName := if udoc.docExists then udoc.displayName
               else some "User"
           , message := msg, time := now }, rfl⟩

theorem C2_witness :
    ("u1" : String) ≠ "" ∧
    (((joinMeetingRun [] "u1" (JoinData.str "r1") (.ok [])
        LookupResult.failure).completed = true ∧
      (roomList (joinMeetingRun [] "u1" (JoinData.str "r1") (.ok [])
          LookupResult.failure).reg "r1").filter
        (fun p => decide (p.userId = "u1")) =
        [mkJoinParticipant "u1" (JoinData.str "r1") LookupResult.failure] ∧
      (mkJoinParticipant "u1" (JoinData.str "r1")
          LookupResult.failure).userName = "User" ∧
      (⟨.toRoom "r1",
         .participantsList
           (roomList (joinMeetingRun [] "u1" (JoinData.str "r1") (.ok [])
             LookupResult.failure).reg "r1")⟩ : Emit) ∈
        (joinMeetingRun [] "u1" (JoinData.str "r1") (.ok [])
          LookupResult.failure).emits) ∧
    (∃ payload : ChatPayload,
      (sendMessageRun "u1" "r1" "hi" (.ok ⟨true, some "Ana"⟩)
          (.error ()) "t0").1 =
        [.emitA ⟨.toRoom "r1", .newMessage payload⟩,
         .persistA "r1" payload]) ∧
    joinMeetingRun [] "u1" (JoinData.str "r1") (.error ())
        LookupResult.notFound = ⟨[], [], false⟩ ∧
    (sendMessageRun "u1" "r1" "hi" (.error ()) (.ok ()) "t0").1 = []) :=
  ⟨by decide,
   C2_graceful_degradation_amended [] "u1" "r1" "hi" "t0" (JoinData.str "r1")
     [] ⟨true, some "Ana"⟩ (.ok ()) LookupResult.notFound (by decide)⟩
